import Mathlib

/-!
Shallow embedding of the "track" large-trade dashboard (plain-JS frontend):
the TTL cache (`Cache`), the retrying HTTP client (`API.fetchWithRetry`), the
Binance exchange adapter (`Binance.getLargeTransactions`, `Binance.getPrice`,
`Binance.processTrades`) and the application controller (`App.loadData`,
`App.renderTransactions`).

Modelling conventions:
- JS numbers that matter to the claims are rationals (`ℚ`); the JS `NaN`
  produced by `parseFloat(undefined)` is the explicit constructor
  `JsValue.nan` (it is falsy, and every comparison with it is false).
- The in-memory cache store is a map `String → Option CacheEntry`; `Date.now()`
  is an explicit `now : Nat` parameter (milliseconds).
- Network outcomes are inputs: each adapter call takes the outcome of the
  underlying `fetchWithRetry` calls as an `Except String _` value.
- `try`/`catch` is an explicit `Except` match; a JS function that cannot throw
  is embedded as a total function.
-/

namespace Track

/-- A raw trade record as returned by the Binance `/api/v3/trades` endpoint,
with the numeric string fields already read as rationals. -/
structure RawTrade where
  id : Nat
  price : ℚ
  qty : ℚ
  quoteQty : ℚ
  time : Nat
  isBuyerMaker : Bool
  deriving DecidableEq, Repr

/-- The canonical transaction record built by `Binance.processTrades`
(src/assets/js/binance.js lines 131–149). `network` is an `Option` because the
JS `chainNames[chain]` lookup yields `undefined` for unknown chains; `from` is
renamed `fromAddr` (`from` is reserved in Lean). -/
structure Transaction where
  id : String
  hash : String
  chain : String
  network : Option String
  amountNative : ℚ
  amountUsd : ℚ
  fromAddr : String
  toAddr : String
  feeNative : ℚ
  feeUsd : ℚ
  timestamp : Nat
  blockHeight : Nat
  blockHash : String
  confirmations : Nat
  explorerUrl : String
  isExchangeTrade : Bool
  price : ℚ
  deriving DecidableEq, Repr

/-- The JS values that flow through the cache and the adapters: numbers,
`NaN`, arrays of transactions, and `null`. -/
inductive JsValue where
  | num (q : ℚ)
  | nan
  | arr (txs : List Transaction)
  | nullV
  deriving DecidableEq, Repr

/-- JS truthiness of the values above: `0` and `NaN` and `null` are falsy,
every array (including `[]`) is truthy. -/
def truthy : JsValue → Bool
  | .num q => decide (q ≠ 0)
  | .nan => false
  | .arr _ => true
  | .nullV => false

/-- Truthiness of a `Cache.get` result (`null` for absent). -/
def truthyOpt : Option JsValue → Bool
  | none => false
  | some v => truthy v

/-- One cache entry: `{ value, expiry }` (src/unnamed/part_000 lines 20–23). -/
structure CacheEntry where
  value : JsValue
  expiry : Nat
  deriving DecidableEq

/-- The cache's `_storage` object. -/
def Store : Type := String → Option CacheEntry

/-- A fresh, empty `_storage`. -/
def emptyStore : Store := fun _ => none

/-- `Cache.set(key, value, ttl)`: absolute expiry `now + ttl`, unconditional
overwrite (src/unnamed/part_000 lines 19–24). -/
def Cache.set (σ : Store) (key : String) (value : JsValue) (ttl : Nat) (now : Nat) : Store :=
  fun k => if k = key then some ⟨value, now + ttl⟩ else σ k

/-- `Cache.get(key)` (src/unnamed/part_000 lines 31–45): absent key gives
`null`; an entry with `now > expiry` is deleted and gives `null`; otherwise the
stored value is returned. Returns the possibly-updated storage as well. -/
def Cache.get (σ : Store) (key : String) (now : Nat) : Option JsValue × Store :=
  match σ key with
  | none => (none, σ)
  | some item =>
    if now > item.expiry then (none, fun k => if k = key then none else σ k)
    else (some item.value, σ)

/-- `Binance.minUSD` (src/assets/js/binance.js line 26). -/
def minUSD : ℚ := 100000

/-- `Binance.symbols` lookup (line 12): `undefined` for unsupported chains. -/
def symbols (chain : String) : Option String :=
  if chain = "btc" then some "BTCUSDT"
  else if chain = "eth" then some "ETHUSDT"
  else if chain = "sol" then some "SOLUSDT"
  else none

/-- `Binance.chainNames` lookup (line 19). -/
def chainNames (chain : String) : Option String :=
  if chain = "btc" then some "Bitcoin"
  else if chain = "eth" then some "Ethereum"
  else if chain = "sol" then some "Solana"
  else none

/-- The record pushed for one surviving trade in `Binance.processTrades`
(src/assets/js/binance.js lines 110–149). -/
def mkTransaction (chain : String) (trade : RawTrade) : Transaction :=
  let tradeId := "binance_" ++ chain ++ "_" ++ toString trade.id
  { id := tradeId
    hash := tradeId
    chain := chain
    network := chainNames chain
    amountNative := trade.qty
    amountUsd := trade.quoteQty
    fromAddr := if trade.isBuyerMaker then "Binance Seller" else "Binance Buyer"
    toAddr := if trade.isBuyerMaker then "Binance Buyer" else "Binance Seller"
    feeNative := 0
    feeUsd := 0
    timestamp := trade.time
    blockHeight := 0
    blockHash := ""
    confirmations := 0
    explorerUrl := "https://www.binance.com/en/trade/" ++ (symbols chain).getD "undefined"
    isExchangeTrade := true
    price := trade.price }

/-- `Binance.processTrades(chain, trades, currentPrice)`
(src/assets/js/binance.js lines 105–157): the loop skips (`continue`) every
trade with `quoteQty < minUSD` and pushes `mkTransaction` for the rest. The
`currentPrice` parameter is kept because the source declares it, even though —
exactly as in the source — it is never used in the loop body. -/
def processTrades (chain : String) (trades : List RawTrade) (currentPrice : JsValue) :
    List Transaction :=
  match trades with
  | [] => []
  | trade :: rest =>
    if trade.quoteQty < minUSD then processTrades chain rest currentPrice
    else mkTransaction chain trade :: processTrades chain rest currentPrice

/-- The ordering used by the comparator `(a, b) => b.amountUsd - a.amountUsd`
(src/assets/js/binance.js line 85): `a` may come before `b` exactly when
`a.amountUsd ≥ b.amountUsd`. JS `Array.prototype.sort` is stable, so the sort
is embedded as the stable `List.insertionSort` under this relation. -/
def txDescLe (a b : Transaction) : Prop := b.amountUsd ≤ a.amountUsd

instance : DecidableRel txDescLe := fun a b => inferInstanceAs (Decidable (b.amountUsd ≤ a.amountUsd))

instance : IsTotal Transaction txDescLe := ⟨fun a b => le_total b.amountUsd a.amountUsd⟩

instance : IsTrans Transaction txDescLe := ⟨fun _ _ _ h1 h2 => le_trans h2 h1⟩

/-- The ordering of the time comparator
`(a, b) => new Date(b.timestamp) - new Date(a.timestamp)`
(src/unnamed/part_000 line 292): newest first. -/
def txTimeDesc (a b : Transaction) : Prop := b.timestamp ≤ a.timestamp

instance : DecidableRel txTimeDesc := fun a b => inferInstanceAs (Decidable (b.timestamp ≤ a.timestamp))

instance : IsTotal Transaction txTimeDesc := ⟨fun a b => le_total b.timestamp a.timestamp⟩

instance : IsTrans Transaction txTimeDesc := ⟨fun _ _ _ h1 h2 => le_trans h2 h1⟩

/-- Lines 84–86 of src/assets/js/binance.js:
`processedTxs.sort((a, b) => b.amountUsd - a.amountUsd).slice(0, limit)`. -/
def sortAndTruncate (processedTxs : List Transaction) (limit : Nat) : List Transaction :=
  (List.insertionSort txDescLe processedTxs).take limit

/-- `API.config.retryDelay` (src/assets/js/api.js line 11), in milliseconds. -/
def retryDelay : Nat := 1000

/-- `API.config.retryAttempts` (src/assets/js/api.js line 10). -/
def retryAttempts : Nat := 3

/-- The observable behaviour of one `API.fetchWithRetry` call: the value it
returns or the error it throws, how many underlying `API.fetch` calls it made,
and the list of delays (ms) it awaited between consecutive attempts. -/
structure RetryTrace (α : Type) where
  result : Except String α
  fetchCalls : Nat
  delays : List Nat

/-- `API.fetchWithRetry(url, options, attempts)` (src/assets/js/api.js lines
56–68). The network is the input `outcome`: the result of the `j`-th
`API.fetch` call for this request (`j` counted from `i`). A success returns at
once; on failure, if `attempts <= 1` the error is rethrown, otherwise the code
awaits `retryDelay` and recurses with `attempts - 1`. -/
def fetchWithRetry {α : Type} (outcome : Nat → Except String α) (attempts : Nat) (i : Nat) :
    RetryTrace α :=
  match attempts, outcome i with
  | _, .ok v => ⟨.ok v, 1, []⟩
  | 0, .error e => ⟨.error e, 1, []⟩
  | 1, .error e => ⟨.error e, 1, []⟩
  | n + 2, .error _ =>
    let rest := fetchWithRetry outcome (n + 1) (i + 1)
    ⟨rest.result, rest.fetchCalls + 1, retryDelay :: rest.delays⟩

/-- What `Binance.callAPI` saw coming back from `API.fetchWithRetry` on the
ticker endpoint: either the parsed `{ price }` object, or — after `callAPI`
swallowed a network error (src/assets/js/binance.js lines 46–49) — the empty
array it substitutes. -/
inductive TickerResp where
  | obj (price : ℚ)
  | emptyArr
  deriving DecidableEq

/-- The network-facing inputs of one adapter operation: the outcome of the
`fetchWithRetry` call for the recent-trades endpoint and for the price-ticker
endpoint. -/
structure BinanceEnv where
  tradesResult : Except String (List RawTrade)
  tickerResult : Except String ℚ

/-- `Binance.callAPI` on the trades endpoint (src/assets/js/binance.js lines
40–50): a thrown error is caught and replaced by the empty array. -/
def callAPItrades (r : Except String (List RawTrade)) : List RawTrade :=
  match r with
  | .ok trades => trades
  | .error _ => []

/-- `Binance.callAPI` on the ticker endpoint: a thrown error is caught and
replaced by the empty array. -/
def callAPIticker (r : Except String ℚ) : TickerResp :=
  match r with
  | .ok price => .obj price
  | .error _ => .emptyArr

/-- `parseFloat(ticker.price)` (src/assets/js/binance.js lines 78 and 176):
on the empty-array substitute, `ticker.price` is `undefined` and
`parseFloat(undefined)` is `NaN`. -/
def parseTickerPrice : TickerResp → JsValue
  | .obj price => .num price
  | .emptyArr => .nan

/-- What one adapter call returns to its caller, the cache storage it leaves
behind, and whether it reached the network at all (false on a truthy cache hit
and on the unsupported-chain throw, which happens before any fetch). -/
structure AdapterResult where
  value : JsValue
  store : Store
  fetched : Bool

/-- The cache key of src/assets/js/binance.js line 59. -/
def txCacheKey (chain : String) (limit : Nat) : String :=
  "binance_" ++ chain ++ "_transactions_" ++ toString limit

/-- The cache key of src/assets/js/binance.js line 165. -/
def priceCacheKey (chain : String) : String :=
  "binance_" ++ chain ++ "_price"

/-- The `try` block of `Binance.getLargeTransactions` (src/assets/js/binance.js
lines 67–91), as an `Except`: the only statement in it that can throw is the
explicit `throw` for an unsupported chain (network errors are already swallowed
inside `callAPI`). -/
def getLargeTransactionsTry (chain : String) (limit : Nat) (env : BinanceEnv) (σ : Store)
    (now : Nat) : Except String AdapterResult :=
  match symbols chain with
  | none => .error ("不支持的链: " ++ chain)
  | some _ =>
    let trades := callAPItrades env.tradesResult
    let ticker := callAPIticker env.tickerResult
    let currentPrice := parseTickerPrice ticker
    let processedTxs := processTrades chain trades currentPrice
    let sortedTxs := sortAndTruncate processedTxs limit
    .ok ⟨.arr sortedTxs, Cache.set σ (txCacheKey chain limit) (.arr sortedTxs) (60 * 1000) now, true⟩

/-- `Binance.getLargeTransactions(chain, limit)` (src/assets/js/binance.js
lines 58–96): a truthy cached value is returned as-is; otherwise the `try`
block runs and a caught error yields the empty array. -/
def getLargeTransactions (chain : String) (limit : Nat) (env : BinanceEnv) (σ : Store)
    (now : Nat) : AdapterResult :=
  let res := Cache.get σ (txCacheKey chain limit) now
  if truthyOpt res.1 then ⟨res.1.getD .nullV, res.2, false⟩
  else
    match getLargeTransactionsTry chain limit env res.2 now with
    | .ok r => r
    | .error _ => ⟨.arr [], res.2, false⟩

/-- The hardcoded `defaultPrices` table of `Binance.getPrice`'s `catch` block
(src/assets/js/binance.js line 185), with the `|| 0` fallback. -/
def defaultPrices (chain : String) : ℚ :=
  if chain = "btc" then 95000
  else if chain = "eth" then 3200
  else if chain = "sol" then 240
  else 0

/-- `Binance.getPrice(chain)` (src/assets/js/binance.js lines 164–188). The
`try` block contains no statement that can throw (`callAPI` swallows network
errors and returns `[]`, on which `parseFloat(ticker.price)` is `NaN`), so the
`catch` block holding `defaultPrices` is unreachable and the function caches
and returns whatever `parseFloat` produced. -/
def getPrice (chain : String) (env : BinanceEnv) (σ : Store) (now : Nat) : AdapterResult :=
  let res := Cache.get σ (priceCacheKey chain) now
  if truthyOpt res.1 then ⟨res.1.getD .nullV, res.2, false⟩
  else
    let ticker := callAPIticker env.tickerResult
    let price := parseTickerPrice ticker
    ⟨price, Cache.set res.2 (priceCacheKey chain) price (60 * 1000) now, true⟩

/-- Which of the controller's mutually exclusive display blocks is visible
(`showLoading` / `showTransactions` / `showError` / `showEmpty`,
src/unnamed/part_000 lines 588–629), plus the initial state before `init`. -/
inductive UIState where
  | idle
  | loading
  | loaded
  | empty
  | error (msg : String)
  deriving DecidableEq, Repr

/-- Discriminator for the error display state. -/
def UIState.isError : UIState → Bool
  | .error _ => true
  | _ => false

/-- `App.state` (src/unnamed/part_000 lines 108–115) together with the visible
display block. -/
structure AppState where
  currentChain : String
  currentSort : String
  transactions : List Transaction
  isLoading : Bool
  lastUpdate : Option Nat
  expandedTxId : Option String
  ui : UIState

/-- The initial `App.state` (src/unnamed/part_000 lines 108–115). -/
def initialAppState : AppState :=
  { currentChain := "all"
    currentSort := "amount"
    transactions := []
    isLoading := false
    lastUpdate := none
    expandedTxId := none
    ui := .idle }

/-- `App.renderTransactions` (src/unnamed/part_000 lines 280–307): spread-copy
the stored list, filter by the selected chain unless it is `"all"`, sort the
copy in place by the selected comparator, then show the empty state or the
card list. Returns the updated app state and the derived view that was
rendered. -/
def renderTransactions (st : AppState) : AppState × List Transaction :=
  let txs0 := st.transactions
  let txs1 := if st.currentChain ≠ "all"
              then txs0.filter (fun tx => tx.chain == st.currentChain)
              else txs0
  let txs2 := if st.currentSort = "amount"
              then List.insertionSort txDescLe txs1
              else List.insertionSort txTimeDesc txs1
  if txs2.isEmpty then ({ st with ui := .empty }, txs2)
  else ({ st with ui := .loaded }, txs2)

/-- Modelled from the spec: `BitcoinService.getLargeTransactions` is declared
in a per-asset facade file that is not under src/ (only its caller in
`App.loadData` is); spec section 2 fixes it as a trivial delegation from the
asset identifier to the exchange adapter, exactly like the `EthereumService`
and `SolanaService` facades that are present in src. -/
def BitcoinService.getLargeTransactions (limit : Nat) (env : BinanceEnv) (σ : Store)
    (now : Nat) : AdapterResult :=
  Track.getLargeTransactions "btc" limit env σ now

/-- `EthereumService.getLargeTransactions` (src/assets/js/solana.js, second
file section): delegation to the adapter with chain `"eth"`. -/
def EthereumService.getLargeTransactions (limit : Nat) (env : BinanceEnv) (σ : Store)
    (now : Nat) : AdapterResult :=
  Track.getLargeTransactions "eth" limit env σ now

/-- `SolanaService.getLargeTransactions` (src/assets/js/solana.js): delegation
to the adapter with chain `"sol"`. -/
def SolanaService.getLargeTransactions (limit : Nat) (env : BinanceEnv) (σ : Store)
    (now : Nat) : AdapterResult :=
  Track.getLargeTransactions "sol" limit env σ now

/-- The network-facing inputs of one `App.loadData` cycle: one adapter
environment per asset. -/
structure LoadEnv where
  btcEnv : BinanceEnv
  ethEnv : BinanceEnv
  solEnv : BinanceEnv

/-- Spreading a settled value into the merged list (`push(...v)`): the adapter
only ever resolves with an array at these keys. -/
def jsArr : JsValue → List Transaction
  | .arr txs => txs
  | _ => []

/-- `App.loadData` (src/unnamed/part_000 lines 218–275), with `force = false`:
reentrancy guard, then the three per-asset fetches joined by
`Promise.allSettled`. The adapter catches every error and resolves normally,
so each settlement is fulfilled and its value is pushed; the `catch` block
(`showError`) would run only if the merge/render code itself threw, which the
embedded fragment cannot. The three calls are event-loop serialized through
the shared cache store. -/
def loadData (env : LoadEnv) (σ : Store) (now : Nat) (st : AppState) : AppState × Store :=
  if st.isLoading then (st, σ)
  else
    let st0 := { st with isLoading := true, ui := .loading }
    let r1 := BitcoinService.getLargeTransactions 20 env.btcEnv σ now
    let r2 := EthereumService.getLargeTransactions 20 env.ethEnv r1.store now
    let r3 := SolanaService.getLargeTransactions 20 env.solEnv r2.store now
    let txs := jsArr r1.value ++ jsArr r2.value ++ jsArr r3.value
    let st1 := { st0 with transactions := txs, lastUpdate := some now }
    let st2 := (renderTransactions st1).1
    ({ st2 with isLoading := false }, r3.store)

/-- The three per-asset result lists of one `loadData` cycle, in the order they
are pushed into `state.transactions`. -/
def loadDataFetched (env : LoadEnv) (σ : Store) (now : Nat) :
    List Transaction × List Transaction × List Transaction :=
  let r1 := BitcoinService.getLargeTransactions 20 env.btcEnv σ now
  let r2 := EthereumService.getLargeTransactions 20 env.ethEnv r1.store now
  let r3 := SolanaService.getLargeTransactions 20 env.solEnv r2.store now
  (jsArr r1.value, jsArr r2.value, jsArr r3.value)

/-- A concrete raw trade whose quote value (50,000 USDT) is below the
threshold. -/
def tradeSmall : RawTrade :=
  { id := 1, price := 94000, qty := 1, quoteQty := 50000, time := 1000, isBuyerMaker := false }

/-- A concrete raw trade whose quote value (150,000 USDT) is above the
threshold. -/
def tradeBig : RawTrade :=
  { id := 2, price := 95000, qty := 2, quoteQty := 150000, time := 2000, isBuyerMaker := true }

/-- A storage holding `set('k', 42, 1000)` performed at time 0. -/
def demoStore : Store := Cache.set emptyStore "k" (.num 42) 1000 0

/-- An environment in which both underlying fetches fail (the HTTP client's
timeout message). -/
def failEnv : BinanceEnv := ⟨.error "请求超时", .error "请求超时"⟩

/-- An environment in which the trades fetch succeeds with one large trade but
the price-ticker fetch fails. -/
def mixedEnv : BinanceEnv := ⟨.ok [tradeBig], .error "请求超时"⟩

/-- A load cycle in which all three per-asset fetches fail. -/
def allFailEnv : LoadEnv := ⟨failEnv, failEnv, failEnv⟩

/-- A load cycle in which only the btc fetch succeeds (with one large trade). -/
def partialEnv : LoadEnv := ⟨⟨.ok [tradeBig], .ok 95000⟩, failEnv, failEnv⟩

/-- C2: `Cache.get` never returns a stored value whose expiry has passed: an
unknown key gives absent with the storage untouched; an entry with
`now > expiry` gives absent and is deleted from the storage; an entry not past
expiry gives the stored value with the storage untouched. -/
theorem cache_get_ttl (σ : Store) (key : String) (now : Nat) :
    (σ key = none → Cache.get σ key now = (none, σ)) ∧
    (∀ item : CacheEntry, σ key = some item → now > item.expiry →
      (Cache.get σ key now).1 = none ∧ (Cache.get σ key now).2 key = none) ∧
    (∀ item : CacheEntry, σ key = some item → ¬ now > item.expiry →
      Cache.get σ key now = (some item.value, σ)) := by
  refine ⟨fun h => ?_, fun item h hexp => ?_, fun item h hexp => ?_⟩
  · simp [Cache.get, h]
  · simp [Cache.get, h, hexp]
  · simp [Cache.get, h, hexp]

/-- Witness for C2: the spec's own scenario. `set('k', 42, 1000)` at time 0,
then `get('k')` at time 500 returns 42; at time 1001 it returns absent and the
entry is removed; an unknown key is absent. -/
theorem cache_get_ttl_witness :
    ((Cache.get demoStore "k" 1001).1 = none ∧ (Cache.get demoStore "k" 1001).2 "k" = none) ∧
    Cache.get demoStore "k" 500 = (some (JsValue.num 42), demoStore) ∧
    Cache.get demoStore "other" 500 = (none, demoStore) :=
  ⟨(cache_get_ttl demoStore "k" 1001).2.1 ⟨.num 42, 1000⟩ rfl (by decide),
   (cache_get_ttl demoStore "k" 500).2.2 ⟨.num 42, 1000⟩ rfl (by decide),
   (cache_get_ttl demoStore "other" 500).1 rfl⟩

/-- C1: every transaction emitted by `processTrades` has
`amountUsd ≥ 100000`, and it originates from a raw trade of the input whose
quote value was not below the threshold (`amountUsd` is that quote value); a
raw trade with quote value below 100000 therefore never produces an output
record. -/
theorem processTrades_threshold (chain : String) (trades : List RawTrade)
    (currentPrice : JsValue) (tx : Transaction)
    (htx : tx ∈ processTrades chain trades currentPrice) :
    minUSD ≤ tx.amountUsd ∧
    ∃ t ∈ trades, ¬ t.quoteQty < minUSD ∧ tx.amountUsd = t.quoteQty := by
  induction trades with
  | nil => simp [processTrades] at htx
  | cons trade rest ih =>
    rw [processTrades] at htx
    by_cases hq : trade.quoteQty < minUSD
    · rw [if_pos hq] at htx
      obtain ⟨h1, t, ht, h2⟩ := ih htx
      exact ⟨h1, t, List.mem_cons_of_mem _ ht, h2⟩
    · rw [if_neg hq] at htx
      rcases List.mem_cons.1 htx with heq | hmem
      · subst heq
        refine ⟨not_lt.1 hq, trade, List.mem_cons_self _ _, hq, rfl⟩
      · obtain ⟨h1, t, ht, h2⟩ := ih hmem
        exact ⟨h1, t, List.mem_cons_of_mem _ ht, h2⟩

/-- Witness for C1: the spec's scenario — two raw trades with quote values
50,000 and 150,000 produce exactly the 150,000 record, and its `amountUsd`
meets the threshold. -/
theorem processTrades_threshold_witness :
    processTrades "btc" [tradeSmall, tradeBig] .nan = [mkTransaction "btc" tradeBig] ∧
    minUSD ≤ (mkTransaction "btc" tradeBig).amountUsd ∧
    ∃ t ∈ [tradeSmall, tradeBig],
      ¬ t.quoteQty < minUSD ∧ (mkTransaction "btc" tradeBig).amountUsd = t.quoteQty := by
  have hmem : mkTransaction "btc" tradeBig ∈ processTrades "btc" [tradeSmall, tradeBig] .nan := by
    decide
  have h := processTrades_threshold "btc" [tradeSmall, tradeBig] .nan
    (mkTransaction "btc" tradeBig) hmem
  exact ⟨by decide, h.1, h.2⟩

/-- Unfolding lemma: a failed attempt with at least two attempts left recurses
after one delay. -/
theorem fetchWithRetry_error_step {α : Type} (outcome : Nat → Except String α) (n i : Nat)
    (e : String) (h : outcome i = .error e) :
    fetchWithRetry outcome (n + 2) i =
      ⟨(fetchWithRetry outcome (n + 1) (i + 1)).result,
       (fetchWithRetry outcome (n + 1) (i + 1)).fetchCalls + 1,
       retryDelay :: (fetchWithRetry outcome (n + 1) (i + 1)).delays⟩ := by
  rw [fetchWithRetry.eq_def]
  rw [h]

/-- Unfolding lemma: a failed attempt with one attempt left rethrows. -/
theorem fetchWithRetry_error_last {α : Type} (outcome : Nat → Except String α) (i : Nat)
    (e : String) (h : outcome i = .error e) :
    fetchWithRetry outcome 1 i = ⟨.error e, 1, []⟩ := by
  rw [fetchWithRetry.eq_def]
  rw [h]

/-- C4: when every underlying `fetch` call fails, `fetchWithRetry` with
`attempts ≥ 1` performs exactly `attempts` fetch calls (so never more than
`attempts`), waits the fixed `retryDelay` between consecutive attempts
(`attempts - 1` delays), and surfaces the error of the last attempt. -/
theorem fetchWithRetry_exhausts_attempts {α : Type} (outcome : Nat → Except String α)
    (errs : Nat → String) (hfail : ∀ j, outcome j = .error (errs j))
    (attempts : Nat) (hpos : 1 ≤ attempts) (i : Nat) :
    (fetchWithRetry outcome attempts i).result = .error (errs (i + attempts - 1)) ∧
    (fetchWithRetry outcome attempts i).fetchCalls = attempts ∧
    (fetchWithRetry outcome attempts i).delays = List.replicate (attempts - 1) retryDelay := by
  induction attempts generalizing i with
  | zero => exact absurd hpos (by omega)
  | succ n ih =>
    match n with
    | 0 => simp [fetchWithRetry_error_last outcome i (errs i) (hfail i)]
    | m + 1 =>
      have hrec := ih (by omega) (i + 1)
      have hidx : i + 1 + (m + 1) - 1 = i + (m + 1 + 1) - 1 := by omega
      rw [fetchWithRetry_error_step outcome m i (errs i) (hfail i)]
      refine ⟨?_, ?_, ?_⟩
      · show (fetchWithRetry outcome (m + 1) (i + 1)).result = _
        rw [hrec.1, hidx]
      · show (fetchWithRetry outcome (m + 1) (i + 1)).fetchCalls + 1 = m + 1 + 1
        rw [hrec.2.1]
      · show retryDelay :: (fetchWithRetry outcome (m + 1) (i + 1)).delays
            = List.replicate (m + 1 + 1 - 1) retryDelay
        rw [hrec.2.2]
        have hstep : m + 1 + 1 - 1 = (m + 1 - 1) + 1 := by omega
        rw [hstep, List.replicate_succ]

/-- On a cache miss with an unsupported chain, the `throw` is caught and the
adapter returns the empty array without touching the network or the cache. -/
theorem getLargeTransactions_miss_unsupported (chain : String) (limit : Nat) (env : BinanceEnv)
    (σ : Store) (now : Nat)
    (hmiss : truthyOpt (Cache.get σ (txCacheKey chain limit) now).1 = false)
    (hsym : symbols chain = none) :
    getLargeTransactions chain limit env σ now =
      ⟨.arr [], (Cache.get σ (txCacheKey chain limit) now).2, false⟩ := by
  rw [getLargeTransactions]
  simp [hmiss, getLargeTransactionsTry, hsym]

/-- On a cache miss with a supported chain and a failed trades fetch,
`callAPI` substitutes the empty trade list, so the adapter caches and returns
the empty array (after reaching the network). -/
theorem getLargeTransactions_miss_tradesError (chain : String) (limit : Nat) (env : BinanceEnv)
    (σ : Store) (now : Nat) (s e : String)
    (hmiss : truthyOpt (Cache.get σ (txCacheKey chain limit) now).1 = false)
    (hsym : symbols chain = some s) (herr : env.tradesResult = .error e) :
    getLargeTransactions chain limit env σ now =
      ⟨.arr [], Cache.set (Cache.get σ (txCacheKey chain limit) now).2
        (txCacheKey chain limit) (.arr []) (60 * 1000) now, true⟩ := by
  rw [getLargeTransactions]
  simp [hmiss, getLargeTransactionsTry, hsym, herr, callAPItrades, processTrades,
    sortAndTruncate, List.insertionSort]

/-- On a cache miss with a supported chain and a successful trades fetch, the
adapter returns the processed, sorted, truncated list — whatever the outcome
of the ticker fetch was. -/
theorem getLargeTransactions_miss_tradesOk (chain : String) (limit : Nat) (env : BinanceEnv)
    (σ : Store) (now : Nat) (s : String) (trades : List RawTrade)
    (hmiss : truthyOpt (Cache.get σ (txCacheKey chain limit) now).1 = false)
    (hsym : symbols chain = some s) (hok : env.tradesResult = .ok trades) :
    getLargeTransactions chain limit env σ now =
      ⟨.arr (sortAndTruncate (processTrades chain trades
          (parseTickerPrice (callAPIticker env.tickerResult))) limit),
        Cache.set (Cache.get σ (txCacheKey chain limit) now).2 (txCacheKey chain limit)
          (.arr (sortAndTruncate (processTrades chain trades
            (parseTickerPrice (callAPIticker env.tickerResult))) limit)) (60 * 1000) now,
        true⟩ := by
  rw [getLargeTransactions]
  simp [hmiss, getLargeTransactionsTry, hsym, hok, callAPItrades]

/-- Stability of one `orderedInsert` step under the descending-amount order:
filtering the result on a fixed `amountUsd` value prepends the inserted
element when its key matches and is otherwise unchanged, because the insertion
point only walks past elements with strictly larger keys. -/
theorem filter_orderedInsert_amountUsd (c : ℚ) (a : Transaction) (s : List Transaction) :
    (List.orderedInsert txDescLe a s).filter (fun tx => tx.amountUsd == c) =
      if a.amountUsd == c then a :: s.filter (fun tx => tx.amountUsd == c)
      else s.filter (fun tx => tx.amountUsd == c) := by
  induction s with
  | nil => simp [List.orderedInsert, List.filter_cons]
  | cons b t ih =>
    by_cases hab : txDescLe a b
    · rw [List.orderedInsert, if_pos hab]
      simp [List.filter_cons]
    · rw [List.orderedInsert, if_neg hab]
      have hlt : a.amountUsd < b.amountUsd := lt_of_not_le hab
      simp only [List.filter_cons, ih]
      by_cases ha : a.amountUsd == c
      · have hbc : (b.amountUsd == c) = false := by
          rw [beq_eq_false_iff_ne]
          rw [beq_iff_eq] at ha
          rw [ha] at hlt
          exact ne_of_gt hlt
        simp [ha, hbc]
      · by_cases hb : b.amountUsd == c <;> simp [ha, hb]

/-- Stability of the whole sort: for every `amountUsd` value, the elements
carrying that value appear in `insertionSort txDescLe l` in exactly the order
they had in `l`. -/
theorem filter_insertionSort_amountUsd (c : ℚ) (l : List Transaction) :
    (List.insertionSort txDescLe l).filter (fun tx => tx.amountUsd == c) =
      l.filter (fun tx => tx.amountUsd == c) := by
  induction l with
  | nil => rfl
  | cons a t ih =>
    simp [List.insertionSort, filter_orderedInsert_amountUsd, ih, List.filter_cons]

/-- C3: the sort-and-truncate step returns the survivors sorted descending by
`amountUsd` (`txDescLe` holds pairwise), the sort is a stable permutation of
the input (equal-key elements keep their input order), and the truncated
result never exceeds the requested `limit`. -/
theorem sortAndTruncate_spec (txs : List Transaction) (limit : Nat) :
    sortAndTruncate txs limit = (List.insertionSort txDescLe txs).take limit ∧
    List.Sorted txDescLe (List.insertionSort txDescLe txs) ∧
    List.Perm (List.insertionSort txDescLe txs) txs ∧
    List.Sorted txDescLe (sortAndTruncate txs limit) ∧
    (sortAndTruncate txs limit).length ≤ limit ∧
    ∀ c : ℚ, (List.insertionSort txDescLe txs).filter (fun tx => tx.amountUsd == c) =
      txs.filter (fun tx => tx.amountUsd == c) := by
  refine ⟨rfl, List.sorted_insertionSort txDescLe txs, List.perm_insertionSort txDescLe txs,
    ?_, ?_, fun c => filter_insertionSort_amountUsd c txs⟩
  · exact List.Pairwise.sublist (List.take_sublist _ _) (List.sorted_insertionSort txDescLe txs)
  · rw [sortAndTruncate, List.length_take]
    exact min_le_left _ _

/-- Witness for C4: against an endpoint that always times out, three attempts
are made, two fixed delays are awaited, and the timeout error surfaces. -/
theorem fetchWithRetry_exhausts_attempts_witness :
    (fetchWithRetry (fun _ => (Except.error "请求超时" : Except String ℚ)) 3 0).result
        = .error "请求超时" ∧
    (fetchWithRetry (fun _ => (Except.error "请求超时" : Except String ℚ)) 3 0).fetchCalls = 3 ∧
    (fetchWithRetry (fun _ => (Except.error "请求超时" : Except String ℚ)) 3 0).delays
        = List.replicate 2 retryDelay :=
  fetchWithRetry_exhausts_attempts (fun _ => (Except.error "请求超时" : Except String ℚ))
    (fun _ => "请求超时") (fun _ => rfl) 3 (by omega) 0

/-- C5 counterexample: a failure does occur during the operation (the
price-ticker fetch fails), yet `getLargeTransactions` returns a non-empty
list, because `callAPI` swallows that failure and the fetched price is never
used by `processTrades`. So "any failure … returns an empty list" is false as
stated. -/
theorem getLargeTransactions_tickerFailure_nonempty :
    mixedEnv.tickerResult = .error "请求超时" ∧
    (getLargeTransactions "btc" 20 mixedEnv emptyStore 0).value ≠ .arr [] := by
  exact ⟨rfl, by decide⟩

/-- C5 (amended): on a cache miss the operation never propagates an error —
it always returns an array. It returns the empty array when the chain is
unsupported or the trades fetch failed; but when the trades fetch succeeds it
returns the processed list regardless of any price-ticker failure (the fetched
price is unused), so only failures that deprive it of trades empty the
result. -/
theorem getLargeTransactions_never_throws (chain : String) (limit : Nat) (env : BinanceEnv)
    (σ : Store) (now : Nat)
    (hmiss : truthyOpt (Cache.get σ (txCacheKey chain limit) now).1 = false) :
    (∃ l, (getLargeTransactions chain limit env σ now).value = .arr l) ∧
    (symbols chain = none → (getLargeTransactions chain limit env σ now).value = .arr []) ∧
    (∀ s e, symbols chain = some s → env.tradesResult = .error e →
      (getLargeTransactions chain limit env σ now).value = .arr []) ∧
    (∀ s trades, symbols chain = some s → env.tradesResult = .ok trades →
      (getLargeTransactions chain limit env σ now).value =
        .arr (sortAndTruncate (processTrades chain trades
          (parseTickerPrice (callAPIticker env.tickerResult))) limit)) := by
  refine ⟨?_, fun hn => ?_, fun s e hs he => ?_, fun s trades hs ht => ?_⟩
  · rcases hsym : symbols chain with _ | s
    · exact ⟨[], by rw [getLargeTransactions_miss_unsupported chain limit env σ now hmiss hsym]⟩
    · rcases htr : env.tradesResult with e | trades
      · exact ⟨[], by
          rw [getLargeTransactions_miss_tradesError chain limit env σ now s e hmiss hsym htr]⟩
      · exact ⟨_, by
          rw [getLargeTransactions_miss_tradesOk chain limit env σ now s trades hmiss hsym htr]⟩
  · rw [getLargeTransactions_miss_unsupported chain limit env σ now hmiss hn]
  · rw [getLargeTransactions_miss_tradesError chain limit env σ now s e hmiss hs he]
  · rw [getLargeTransactions_miss_tradesOk chain limit env σ now s trades hmiss hs ht]

/-- Witness for C5 (amended): concrete miss with a supported chain, a
successful trades fetch and a failed ticker fetch — the result is the
processed list of the one large trade, not the empty array. -/
theorem getLargeTransactions_never_throws_witness :
    (getLargeTransactions "btc" 20 mixedEnv emptyStore 0).value =
      .arr (sortAndTruncate (processTrades "btc" [tradeBig]
        (parseTickerPrice (callAPIticker mixedEnv.tickerResult))) 20) :=
  (getLargeTransactions_never_throws "btc" 20 mixedEnv emptyStore 0 (by decide)).2.2.2
    "BTCUSDT" [tradeBig] (by decide) rfl

/-- C6: the claim says a failed price fetch yields the hardcoded fallback
(95,000 for btc); the code instead reaches `parseFloat(undefined)` — the
`catch` holding `defaultPrices` is unreachable because `callAPI` already
swallowed the error — so `getPrice` returns `NaN` (a non-numeric value, not
the fallback) and even caches that `NaN` under the price key for one minute. -/
theorem getPrice_failure_returns_nan :
    (getPrice "btc" failEnv emptyStore 0).value = .nan ∧
    JsValue.nan ≠ .num (defaultPrices "btc") ∧
    (getPrice "btc" failEnv emptyStore 0).store (priceCacheKey "btc") =
      some ⟨.nan, 60 * 1000⟩ := by
  refine ⟨by decide, by decide, by decide⟩

/-- C9: the adapters' cache-hit test is JS truthiness of the cached value, not
entry presence. An unexpired cached `0` or `NaN` at the price key makes
`getPrice` refetch; an unexpired cached `0` at the transactions key makes
`getLargeTransactions` refetch (for a supported chain); an unexpired cached
empty array (truthy) is returned as a hit without any fetch and with the
storage untouched. -/
theorem cache_truthiness_hit_test (chain : String) (limit : Nat) (env : BinanceEnv)
    (now expiry : Nat) (hexp : ¬ now > expiry) :
    (∀ σ : Store, σ (priceCacheKey chain) = some ⟨.num 0, expiry⟩ →
      (getPrice chain env σ now).fetched = true) ∧
    (∀ σ : Store, σ (priceCacheKey chain) = some ⟨.nan, expiry⟩ →
      (getPrice chain env σ now).fetched = true) ∧
    (∀ (σ : Store) (s : String), σ (txCacheKey chain limit) = some ⟨.num 0, expiry⟩ →
      symbols chain = some s →
      (getLargeTransactions chain limit env σ now).fetched = true) ∧
    (∀ σ : Store, σ (txCacheKey chain limit) = some ⟨.arr [], expiry⟩ →
      (getLargeTransactions chain limit env σ now).value = .arr [] ∧
      (getLargeTransactions chain limit env σ now).fetched = false ∧
      (getLargeTransactions chain limit env σ now).store = σ) := by
  refine ⟨fun σ h => ?_, fun σ h => ?_, fun σ s h hs => ?_, fun σ h => ?_⟩
  · rw [getPrice]
    simp [Cache.get, h, hexp, truthyOpt, truthy]
  · rw [getPrice]
    simp [Cache.get, h, hexp, truthyOpt, truthy]
  · rw [getLargeTransactions]
    simp [Cache.get, h, hexp, truthyOpt, truthy, getLargeTransactionsTry, hs]
  · rw [getLargeTransactions]
    simp [Cache.get, h, hexp, truthyOpt, truthy]

/-- Witness for C9: with entries cached at time 0 and read at time 30,000
(TTL 60,000), a cached price `0` and a cached price `NaN` are refetched, a
cached `0` at the transactions key is refetched, and a cached `[]` at the
transactions key is served as a hit without fetching. -/
theorem cache_truthiness_hit_test_witness :
    (getPrice "btc" failEnv (Cache.set emptyStore (priceCacheKey "btc") (.num 0) 60000 0)
      30000).fetched = true ∧
    (getPrice "btc" failEnv (Cache.set emptyStore (priceCacheKey "btc") .nan 60000 0)
      30000).fetched = true ∧
    (getLargeTransactions "btc" 20 failEnv
      (Cache.set emptyStore (txCacheKey "btc" 20) (.num 0) 60000 0) 30000).fetched = true ∧
    (getLargeTransactions "btc" 20 failEnv
      (Cache.set emptyStore (txCacheKey "btc" 20) (.arr []) 60000 0) 30000).value = .arr [] ∧
    (getLargeTransactions "btc" 20 failEnv
      (Cache.set emptyStore (txCacheKey "btc" 20) (.arr []) 60000 0) 30000).fetched = false :=
  have h := cache_truthiness_hit_test "btc" 20 failEnv 30000 60000 (by omega)
  have h4 := h.2.2.2 (Cache.set emptyStore (txCacheKey "btc" 20) (.arr []) 60000 0) (by decide)
  ⟨h.1 (Cache.set emptyStore (priceCacheKey "btc") (.num 0) 60000 0) (by decide),
   h.2.1 (Cache.set emptyStore (priceCacheKey "btc") .nan 60000 0) (by decide),
   h.2.2.1 (Cache.set emptyStore (txCacheKey "btc" 20) (.num 0) 60000 0) "BTCUSDT" (by decide)
     (by decide),
   h4.1, h4.2.1⟩

/-- C10: a failed trades fetch is negatively cached. On a cache miss for a
supported chain, a trades-fetch failure makes the adapter return the empty
array, store it under the asset+limit key with the one-minute TTL
(`expiry = now + 60000`), and every later call for that asset and limit while
the clock has not passed that expiry returns the cached empty array as a hit,
without reaching the network — whatever its own network environment would
have returned. -/
theorem trades_failure_negative_cache (chain s e : String) (limit : Nat) (env : BinanceEnv)
    (σ : Store) (now : Nat)
    (hsym : symbols chain = some s) (herr : env.tradesResult = .error e)
    (hmiss : σ (txCacheKey chain limit) = none) :
    (getLargeTransactions chain limit env σ now).value = .arr [] ∧
    (getLargeTransactions chain limit env σ now).fetched = true ∧
    (getLargeTransactions chain limit env σ now).store (txCacheKey chain limit) =
      some ⟨.arr [], now + 60 * 1000⟩ ∧
    (∀ (env2 : BinanceEnv) (now2 : Nat), now2 ≤ now + 60 * 1000 →
      (getLargeTransactions chain limit env2
        (getLargeTransactions chain limit env σ now).store now2).value = .arr [] ∧
      (getLargeTransactions chain limit env2
        (getLargeTransactions chain limit env σ now).store now2).fetched = false) := by
  have hmiss2 : truthyOpt (Cache.get σ (txCacheKey chain limit) now).1 = false := by
    simp [Cache.get, hmiss, truthyOpt]
  have h := getLargeTransactions_miss_tradesError chain limit env σ now s e hmiss2 hsym herr
  have hget : (Cache.get σ (txCacheKey chain limit) now).2 = σ := by
    simp [Cache.get, hmiss]
  rw [h, hget]
  have hkey : Cache.set σ (txCacheKey chain limit) (.arr []) (60 * 1000) now
      (txCacheKey chain limit) = some ⟨.arr [], now + 60 * 1000⟩ := by
    simp [Cache.set]
  refine ⟨rfl, rfl, hkey, fun env2 now2 hlt => ?_⟩
  have hnotpast : ¬ now2 > now + 60 * 1000 := by omega
  rw [getLargeTransactions]
  simp [Cache.get, hkey, hnotpast, truthyOpt, truthy]

/-- Witness for C10: chain btc, fresh cache, trades fetch failing at time 0;
the empty list is cached until 60,000 and a second call at time 59,999 with a
healthy network still returns the cached empty list without fetching. -/
theorem trades_failure_negative_cache_witness :
    (getLargeTransactions "btc" 20 failEnv emptyStore 0).value = .arr [] ∧
    (getLargeTransactions "btc" 20 failEnv emptyStore 0).store (txCacheKey "btc" 20) =
      some ⟨.arr [], 60000⟩ ∧
    (getLargeTransactions "btc" 20 ⟨.ok [tradeBig], .ok 95000⟩
      (getLargeTransactions "btc" 20 failEnv emptyStore 0).store 59999).value = .arr [] ∧
    (getLargeTransactions "btc" 20 ⟨.ok [tradeBig], .ok 95000⟩
      (getLargeTransactions "btc" 20 failEnv emptyStore 0).store 59999).fetched = false :=
  have h := trades_failure_negative_cache "btc" "BTCUSDT" "请求超时" 20 failEnv emptyStore 0
    (by decide) rfl rfl
  have h2 := h.2.2.2 ⟨.ok [tradeBig], .ok 95000⟩ 59999 (by omega)
  ⟨h.1, h.2.2.1, h2.1, h2.2⟩

/-- Sorting does not change emptiness (the sorted list is a permutation). -/
theorem isEmpty_insertionSort (r : Transaction → Transaction → Prop) [DecidableRel r]
    (l : List Transaction) : (List.insertionSort r l).isEmpty = l.isEmpty := by
  have hlen : (List.insertionSort r l).length = l.length := List.length_insertionSort r l
  rcases l with _ | ⟨a, t⟩
  · rfl
  · rcases hs : List.insertionSort r (a :: t) with _ | ⟨b, u⟩
    · rw [hs] at hlen
      simp at hlen
    · rfl

/-- With the chain filter set to `"all"`, `renderTransactions` keeps the
stored list intact and shows the empty state exactly when the stored list is
empty, the loaded state otherwise. -/
theorem renderTransactions_all_ui (st : AppState) (hc : st.currentChain = "all") :
    (renderTransactions st).1.transactions = st.transactions ∧
    (renderTransactions st).1.ui =
      (if st.transactions.isEmpty then UIState.empty else UIState.loaded) := by
  rw [renderTransactions]
  have hfilter : (if st.currentChain ≠ "all"
      then st.transactions.filter (fun tx => tx.chain == st.currentChain)
      else st.transactions) = st.transactions := by
    rw [if_neg (by simp [hc])]
  rw [hfilter]
  by_cases hs : st.currentSort = "amount"
  · rw [if_pos hs]
    rw [isEmpty_insertionSort]
    by_cases he : st.transactions.isEmpty
    · rw [if_pos he, if_pos he]
      exact ⟨rfl, rfl⟩
    · rw [if_neg he, if_neg he]
      exact ⟨rfl, rfl⟩
  · rw [if_neg hs]
    rw [isEmpty_insertionSort]
    by_cases he : st.transactions.isEmpty
    · rw [if_pos he, if_pos he]
      exact ⟨rfl, rfl⟩
    · rw [if_neg he, if_neg he]
      exact ⟨rfl, rfl⟩

/-- Unfolding lemma for a non-reentrant `loadData` call: the final app state
is the rendered state over the merged per-asset lists, with the loading flag
cleared. -/
theorem loadData_eq (env : LoadEnv) (σ : Store) (now : Nat) (st : AppState)
    (h1 : st.isLoading = false) :
    (loadData env σ now st).1 =
      { (renderTransactions
          { st with
            isLoading := true
            ui := .loading
            transactions := (loadDataFetched env σ now).1 ++
              (loadDataFetched env σ now).2.1 ++ (loadDataFetched env σ now).2.2
            lastUpdate := some now }).1 with isLoading := false } := by
  rw [loadData, if_neg (by simp [h1])]
  rfl

/-- On a miss over an empty key (and a supported chain with a failed trades
fetch) the adapter returns the empty array and only touches its own cache
key. -/
theorem store_after_miss_error (chain s e : String) (limit : Nat) (env : BinanceEnv)
    (σ : Store) (now : Nat)
    (hσnone : σ (txCacheKey chain limit) = none)
    (hsym : symbols chain = some s) (herr : env.tradesResult = .error e) :
    (getLargeTransactions chain limit env σ now).value = .arr [] ∧
    ∀ k, k ≠ txCacheKey chain limit → (getLargeTransactions chain limit env σ now).store k = σ k := by
  have hmiss : truthyOpt (Cache.get σ (txCacheKey chain limit) now).1 = false := by
    simp [Cache.get, hσnone, truthyOpt]
  rw [getLargeTransactions_miss_tradesError chain limit env σ now s e hmiss hsym herr]
  refine ⟨rfl, fun k hk => ?_⟩
  simp [Cache.set, Cache.get, hσnone, hk]

/-- C7 counterexample: when all three per-asset fetches fail, the controller
does not transition to the error state — every adapter call resolves with an
empty list (errors are swallowed at the adapter), the aggregate list is empty,
and `renderTransactions` shows the empty state. -/
theorem loadData_allFail_shows_empty :
    (loadData allFailEnv emptyStore 0 initialAppState).1.ui = .empty ∧
    UIState.isError (loadData allFailEnv emptyStore 0 initialAppState).1.ui = false := by
  exact ⟨by decide, by decide⟩

/-- C7 (amended): for a non-reentrant `loadData` call with the `"all"` chain
filter, the controller never reaches the error state: the stored list becomes
exactly the concatenation of the three per-asset results (so only successful
assets contribute transactions); it transitions to the empty state when that
list is empty and to the loaded state otherwise. In particular, when all
three per-asset fetches fail over a fresh cache, the list is empty and the
controller shows the empty state — not the error state the claim predicts. -/
theorem loadData_transitions (env : LoadEnv) (σ : Store) (now : Nat) (st : AppState)
    (h1 : st.isLoading = false) (h2 : st.currentChain = "all") :
    UIState.isError (loadData env σ now st).1.ui = false ∧
    (loadData env σ now st).1.transactions =
      (loadDataFetched env σ now).1 ++ (loadDataFetched env σ now).2.1 ++
        (loadDataFetched env σ now).2.2 ∧
    ((loadData env σ now st).1.transactions = [] → (loadData env σ now st).1.ui = .empty) ∧
    ((loadData env σ now st).1.transactions ≠ [] → (loadData env σ now st).1.ui = .loaded) ∧
    (∀ e1 e2 e3, env.btcEnv.tradesResult = .error e1 → env.ethEnv.tradesResult = .error e2 →
      env.solEnv.tradesResult = .error e3 → (∀ k, σ k = none) →
      (loadData env σ now st).1.transactions = [] ∧ (loadData env σ now st).1.ui = .empty) := by
  have hl := loadData_eq env σ now st h1
  have hR := renderTransactions_all_ui
    { st with
      isLoading := true
      ui := .loading
      transactions := (loadDataFetched env σ now).1 ++
        (loadDataFetched env σ now).2.1 ++ (loadDataFetched env σ now).2.2
      lastUpdate := some now } (by simpa using h2)
  have htx : (loadData env σ now st).1.transactions =
      (loadDataFetched env σ now).1 ++ (loadDataFetched env σ now).2.1 ++
        (loadDataFetched env σ now).2.2 := by
    rw [hl]
    exact hR.1
  have hui : (loadData env σ now st).1.ui =
      (if ((loadDataFetched env σ now).1 ++ (loadDataFetched env σ now).2.1 ++
        (loadDataFetched env σ now).2.2).isEmpty then UIState.empty else UIState.loaded) := by
    rw [hl]
    exact hR.2
  have hempty : (loadData env σ now st).1.transactions = [] →
      (loadData env σ now st).1.ui = .empty := by
    intro h0
    rw [htx] at h0
    rw [hui, h0]
    rfl
  refine ⟨?_, htx, hempty, fun hne => ?_, fun e1 e2 e3 hb he hs hσ => ?_⟩
  · rw [hui]
    by_cases h0 : ((loadDataFetched env σ now).1 ++ (loadDataFetched env σ now).2.1 ++
        (loadDataFetched env σ now).2.2).isEmpty
    · rw [if_pos h0]
      rfl
    · rw [if_neg h0]
      rfl
  · rw [htx] at hne
    rw [hui, if_neg (by simpa [List.isEmpty_iff] using hne)]
  · have hb1 := store_after_miss_error "btc" "BTCUSDT" e1 20 env.btcEnv σ now (hσ _) rfl hb
    have hσ2 : (getLargeTransactions "btc" 20 env.btcEnv σ now).store
        (txCacheKey "eth" 20) = none := by
      rw [hb1.2 _ (by decide)]
      exact hσ _
    have hb2 := store_after_miss_error "eth" "ETHUSDT" e2 20 env.ethEnv
      (getLargeTransactions "btc" 20 env.btcEnv σ now).store now hσ2 rfl he
    have hσ3 : (getLargeTransactions "eth" 20 env.ethEnv
        (getLargeTransactions "btc" 20 env.btcEnv σ now).store now).store
        (txCacheKey "sol" 20) = none := by
      rw [hb2.2 _ (by decide), hb1.2 _ (by decide)]
      exact hσ _
    have hb3 := store_after_miss_error "sol" "SOLUSDT" e3 20 env.solEnv
      (getLargeTransactions "eth" 20 env.ethEnv
        (getLargeTransactions "btc" 20 env.btcEnv σ now).store now).store now hσ3 rfl hs
    have hfetched : ((loadDataFetched env σ now).1 ++ (loadDataFetched env σ now).2.1 ++
        (loadDataFetched env σ now).2.2) = [] := by
      simp [loadDataFetched, BitcoinService.getLargeTransactions,
        EthereumService.getLargeTransactions, SolanaService.getLargeTransactions,
        hb1.1, hb2.1, hb3.1, jsArr]
    have h0 : (loadData env σ now st).1.transactions = [] := by
      rw [htx, hfetched]
    exact ⟨h0, hempty h0⟩

/-- Witness for C7 (amended): with only the btc fetch succeeding, the
controller lands in the loaded state; with all three failing over a fresh
cache, the merged list is empty and the controller lands in the empty state. -/
theorem loadData_transitions_witness :
    (loadData partialEnv emptyStore 0 initialAppState).1.ui = .loaded ∧
    (loadData allFailEnv emptyStore 0 initialAppState).1.transactions = [] ∧
    (loadData allFailEnv emptyStore 0 initialAppState).1.ui = .empty :=
  have hp := (loadData_transitions partialEnv emptyStore 0 initialAppState rfl rfl).2.2.2.1
    (by decide)
  have ha := (loadData_transitions allFailEnv emptyStore 0 initialAppState rfl rfl).2.2.2.2
    "请求超时" "请求超时" "请求超时" rfl rfl rfl (fun _ => rfl)
  ⟨hp, ha.1, ha.2⟩

/-- C8: the render step derives its view from a copy of the stored list and
never mutates the stored list: after `renderTransactions` the state holds the
same transactions in the same order, while the returned view is a permutation
of the chain-filtered stored list, sorted by the selected comparator. -/
theorem renderTransactions_pure_view (st : AppState) :
    (renderTransactions st).1.transactions = st.transactions ∧
    List.Perm (renderTransactions st).2
      (if st.currentChain ≠ "all"
       then st.transactions.filter (fun tx => tx.chain == st.currentChain)
       else st.transactions) ∧
    (st.currentSort = "amount" → List.Sorted txDescLe (renderTransactions st).2) ∧
    (st.currentSort ≠ "amount" → List.Sorted txTimeDesc (renderTransactions st).2) := by
  have hview : (renderTransactions st).2 =
      (if st.currentSort = "amount"
       then List.insertionSort txDescLe
          (if st.currentChain ≠ "all"
           then st.transactions.filter (fun tx => tx.chain == st.currentChain)
           else st.transactions)
       else List.insertionSort txTimeDesc
          (if st.currentChain ≠ "all"
           then st.transactions.filter (fun tx => tx.chain == st.currentChain)
           else st.transactions)) := by
    simp only [renderTransactions]
    split <;> split <;> split <;> rfl
  have htrans : (renderTransactions st).1.transactions = st.transactions := by
    simp only [renderTransactions]
    split <;> split <;> split <;> rfl
  refine ⟨htrans, ?_, fun hs => ?_, fun hs => ?_⟩
  · rw [hview]
    by_cases hs : st.currentSort = "amount"
    · rw [if_pos hs]
      exact List.perm_insertionSort txDescLe _
    · rw [if_neg hs]
      exact List.perm_insertionSort txTimeDesc _
  · rw [hview, if_pos hs]
    exact List.sorted_insertionSort txDescLe _
  · rw [hview, if_neg hs]
    exact List.sorted_insertionSort txTimeDesc _

/-- Witness for C8: a concrete state with one stored transaction and the
amount sort selected — the stored list is unchanged by the render and the view
is sorted. -/
theorem renderTransactions_pure_view_witness :
    (renderTransactions
      { initialAppState with transactions := [mkTransaction "btc" tradeBig] }).1.transactions =
      [mkTransaction "btc" tradeBig] ∧
    List.Sorted txDescLe (renderTransactions
      { initialAppState with transactions := [mkTransaction "btc" tradeBig] }).2 :=
  ⟨(renderTransactions_pure_view
      { initialAppState with transactions := [mkTransaction "btc" tradeBig] }).1,
   (renderTransactions_pure_view
      { initialAppState with transactions := [mkTransaction "btc" tradeBig] }).2.2.1 rfl⟩

end Track
